import Mathlib

/-!
Verification of the dem2las scanline-streaming pipeline (src/dem2las.py).

The embedding follows the source closely:
* `getActualPoint` — the six-coefficient grid-to-world map (lines 34-44);
* `arange` — exact-real semantics of `numpy.arange(start, stop, step)`:
  `ceil((stop - start) / step)` elements `start + i * step`;
* `rowVals` — the per-row x/y coordinate generation (lines 126-137);
* `scanIndices` / `filterRow` — the no-data filter (lines 143-146);
* `saveLasFile` — per-chunk offset/scale derivation (lines 46-67); it
  returns `none` on an empty buffer because `numpy.min` of an empty array
  raises;
* `appendRow`, `ingestRow`, `runRows`, `runPipeline` — the main loop with
  its threshold-triggered flushes and the mandatory final flush
  (lines 107-159).

Everything is generic over a `LinearOrderedField` with a `FloorRing`
structure, so the claims are settled in exact real arithmetic; the
trigonometric functions are passed in as parameters and instantiated with
`Real.sin` / `Real.cos` for the concrete end-to-end scenarios.
-/

set_option linter.unusedSectionVars false

namespace Dem2Las

/-- The six GDAL geotransform coefficients, in the order the source tuple
stores them: `c0` = origin x, `c1` = pixel width, `c2` = the rotation
coefficient the source reads as `rot`, `c3` = origin y, `c4` = the second
rotation coefficient (never read by the source), `c5` = pixel height. -/
structure GeoTransform (α : Type*) where
  c0 : α
  c1 : α
  c2 : α
  c3 : α
  c4 : α
  c5 : α
deriving DecidableEq

variable {α : Type*} [LinearOrderedField α] [FloorRing α] [DecidableEq α]

/-- The source function getActualPoint(lx, ly, transform) (lines 34-44):
`x = startx + lx·cos(rot)·resx + ly·sin(rot)·resy`,
`y = starty + lx·sin(rot)·resx + ly·cos(rot)·resy`, with
`startx = transform[0]`, `starty = transform[3]`, `resx = transform[1]`,
`resy = transform[5]`, `rot = transform[2]`. -/
def getActualPoint (sinf cosf : α → α) (lx ly : α) (t : GeoTransform α) : α × α :=
  (t.c0 + lx * cosf t.c2 * t.c1 + ly * sinf t.c2 * t.c5,
   t.c3 + lx * sinf t.c2 * t.c1 + ly * cosf t.c2 * t.c5)

/-- Modelled from the spec: the Geotransform Mapper formula of §4.1, whose
row terms use the transform's fifth coefficient (`rotation2 = c4`) while
the column terms use the third (`rotation1 = c2`). Stated separately from
`getActualPoint` so the two can be compared. -/
def mapPointSpec (sinf cosf : α → α) (col row : α) (t : GeoTransform α) : α × α :=
  (t.c0 + col * cosf t.c2 * t.c1 + row * sinf t.c4 * t.c5,
   t.c3 + col * sinf t.c2 * t.c1 + row * cosf t.c4 * t.c5)

/-- Exact-real semantics of `numpy.arange(start, stop, step)`:
`⌈(stop - start) / step⌉` elements, the i-th being `start + i·step`. -/
def arange (start stop step : α) : List α :=
  (List.range (⌈(stop - start) / step⌉).toNat).map (fun (i : ℕ) => start + (i : α) * step)

/-- The per-row x/y coordinate generation of the main loop (lines 126-137):
endpoints from `getActualPoint` at columns `0` and `xsize`, then either an
`arange` with step `dx = cos(rot)·resx` (resp. `dy = sin(rot)·resx`) when
that step is nonzero, or `xsize` copies of the left endpoint. -/
def rowVals (sinf cosf : α → α) (t : GeoTransform α) (xsize y : ℕ) :
    List α × List α :=
  let minp := getActualPoint sinf cosf 0 (y : α) t
  let maxp := getActualPoint sinf cosf (xsize : α) (y : α) t
  let dx := cosf t.c2 * t.c1
  let dy := sinf t.c2 * t.c1
  ((if dx ≠ 0 then arange minp.1 maxp.1 dx else List.replicate xsize minp.1),
   (if dy ≠ 0 then arange minp.2 maxp.2 dy else List.replicate xsize minp.2))

/-- Line 143: `indices = [i for i in range(len(zvals)) if zvals[i] != no_data_value]`. -/
def scanIndices (zvals : List α) (noDataValue : α) : List ℕ :=
  (List.range zvals.length).filter (fun i => zvals.getD i noDataValue ≠ noDataValue)

/-- Lines 144-146: the three `extend` payloads — the surviving x, y and z
values, read off at the filtered indices. -/
def filterRow (xvals yvals zvals : List α) (noDataValue : α) :
    List α × List α × List α :=
  ((scanIndices zvals noDataValue).map (fun i => xvals.getD i 0),
   (scanIndices zvals noDataValue).map (fun i => yvals.getD i 0),
   (scanIndices zvals noDataValue).map (fun i => zvals.getD i 0))

/-- One written output chunk: the chunk index used in the filename, the
three coordinate lists handed to the writer, and the header offset and
scale computed at flush time. -/
structure LasFile (α : Type*) where
  fileIndex : ℕ
  xs : List α
  ys : List α
  zs : List α
  offset : α × α × α
  scale : α × α × α
deriving DecidableEq

/-- Line 61: the fixed header scale `[0.001, 0.001, 0.001]`. -/
def lasScale : α × α × α := (1 / 1000, 1 / 1000, 1 / 1000)

/-- The source function saveLasFile (lines 46-67): offset is the component-wise floor of the
minima of the buffered coordinate lists; on an empty buffer `numpy.min`
raises (no identity for the reduction), so no file is produced. -/
def saveLasFile (xvalues yvalues zvalues : List α) (idx : ℕ) :
    Option (LasFile α) :=
  match xvalues.min?, yvalues.min?, zvalues.min? with
  | some mx, some my, some mz =>
      some ⟨idx, xvalues, yvalues, zvalues,
        ((⌊mx⌋ : α), (⌊my⌋ : α), (⌊mz⌋ : α)), lasScale⟩
  | _, _, _ => none

/-- The accumulation state of the main loop: the three coordinate buffers,
the next chunk index `file_i`, and the chunks already written. -/
structure PipeState (α : Type*) where
  xvalues : List α
  yvalues : List α
  zvalues : List α
  file_i : ℕ
  files : List (LasFile α)
deriving DecidableEq

/-- The state at the top of the main loop (lines 107-118). -/
def initState : PipeState α := ⟨[], [], [], 0, []⟩

/-- Lines 144-146: extend the three buffers with one row's surviving
points. -/
def appendRow (st : PipeState α) (xvals yvals zvals : List α)
    (noDataValue : α) : PipeState α :=
  { st with
    xvalues := st.xvalues ++ (filterRow xvals yvals zvals noDataValue).1,
    yvalues := st.yvalues ++ (filterRow xvals yvals zvals noDataValue).2.1,
    zvalues := st.zvalues ++ (filterRow xvals yvals zvals noDataValue).2.2 }

/-- One iteration of the main loop (lines 121-156) for row `y` with raw
values `values`: generate coordinates, filter, extend the buffers, then
flush if the buffer now exceeds `limit`. `none` signals a crash inside
`saveLasFile`. -/
def ingestRow (noDataValue : α) (limit : ℕ) (sinf cosf : α → α)
    (t : GeoTransform α) (xsize : ℕ) (st : PipeState α) (y : ℕ)
    (values : List α) : Option (PipeState α) :=
  let st' := appendRow st (rowVals sinf cosf t xsize y).1
    (rowVals sinf cosf t xsize y).2 values noDataValue
  if st'.xvalues.length > limit then
    match saveLasFile st'.xvalues st'.yvalues st'.zvalues st'.file_i with
    | some f => some ⟨[], [], [], st'.file_i + 1, st'.files ++ [f]⟩
    | none => none
  else
    some st'

/-- Result of running the row loop: either the final accumulation state,
or the chunks that were already on disk when a flush crashed. -/
inductive LoopOutcome (α : Type*) where
  | done (st : PipeState α)
  | writeError (files : List (LasFile α))
deriving DecidableEq

/-- The row loop (lines 121-156), rows fed in index order starting at `y`. -/
def runRows (noDataValue : α) (limit : ℕ) (sinf cosf : α → α)
    (t : GeoTransform α) (xsize : ℕ) :
    PipeState α → ℕ → List (List α) → LoopOutcome α
  | st, _, [] => LoopOutcome.done st
  | st, y, values :: rest =>
    match ingestRow noDataValue limit sinf cosf t xsize st y values with
    | some st' => runRows noDataValue limit sinf cosf t xsize st' (y + 1) rest
    | none => LoopOutcome.writeError st.files

/-- Result of a whole run: the written chunks, or the chunks on disk when
a flush crashed. -/
inductive RunOutcome (α : Type*) where
  | ok (files : List (LasFile α))
  | writeError (files : List (LasFile α))
deriving DecidableEq

/-- The whole pipeline (lines 121-159): the row loop followed by the
unconditional final `saveLasFile` on whatever remains in the buffers. -/
def runPipeline (noDataValue : α) (limit : ℕ) (sinf cosf : α → α)
    (t : GeoTransform α) (xsize : ℕ) (rows : List (List α)) : RunOutcome α :=
  match runRows noDataValue limit sinf cosf t xsize initState 0 rows with
  | LoopOutcome.writeError fs => RunOutcome.writeError fs
  | LoopOutcome.done st =>
    match saveLasFile st.xvalues st.yvalues st.zvalues st.file_i with
    | some f => RunOutcome.ok (st.files ++ [f])
    | none => RunOutcome.writeError st.files

/-- Triples `(x, y, z)` in column order, the spec's view of a scanline. -/
def zip3 (xs ys zs : List α) : List (α × α × α) :=
  xs.zip (ys.zip zs)

/-- Total number of cells whose value differs from the sentinel, across
all rows. -/
def totalValidPoints (noDataValue : α) (rows : List (List α)) : ℕ :=
  (rows.map (fun r => (scanIndices r noDataValue).length)).sum

/-- Total number of points stored across a list of written chunks. -/
def filesPoints (fs : List (LasFile α)) : ℕ :=
  (fs.map (fun f => f.xs.length)).sum

/-- Number of files on disk at the end of a run (complete files only;
a crashed final flush leaves the files already written). -/
def countFiles : RunOutcome α → ℕ
  | RunOutcome.ok fs => fs.length
  | RunOutcome.writeError fs => fs.length

/-- The per-chunk header contract of the spec: a written chunk is
non-empty, its offset is the component-wise floor of the minima of its own
coordinate lists, and its scale is `0.001` on every axis. -/
def GoodChunk (f : LasFile α) : Prop :=
  f.xs ≠ [] ∧
  (∃ mx, f.xs.min? = some mx ∧ f.offset.1 = (⌊mx⌋ : α)) ∧
  (∃ my, f.ys.min? = some my ∧ f.offset.2.1 = (⌊my⌋ : α)) ∧
  (∃ mz, f.zs.min? = some mz ∧ f.offset.2.2 = (⌊mz⌋ : α)) ∧
  f.scale = (1 / 1000, 1 / 1000, 1 / 1000)

lemma scanIndices_nil (nd : α) : scanIndices ([] : List α) nd = [] := rfl

lemma scanIndices_cons (z nd : α) (zs : List α) :
    scanIndices (z :: zs) nd =
      (if z ≠ nd then [0] else []) ++ (scanIndices zs nd).map (· + 1) := by
  by_cases hz : z = nd <;>
    simp [scanIndices, List.range_succ_eq_map, List.filter_cons, hz,
      List.filter_map, Function.comp_def]

lemma filterRow_zs_nil (xs ys : List α) (nd : α) :
    filterRow xs ys [] nd = ([], [], []) := rfl

lemma filterRow_cons (x y z nd : α) (xs ys zs : List α) :
    filterRow (x :: xs) (y :: ys) (z :: zs) nd =
      if z ≠ nd then
        (x :: (filterRow xs ys zs nd).1,
         y :: (filterRow xs ys zs nd).2.1,
         z :: (filterRow xs ys zs nd).2.2)
      else filterRow xs ys zs nd := by
  by_cases hz : z = nd <;>
    simp [filterRow, scanIndices_cons, hz, List.map_map, Function.comp_def]

lemma zip3_cons (x y z : α) (xs ys zs : List α) :
    zip3 (x :: xs) (y :: ys) (z :: zs) = (x, y, z) :: zip3 xs ys zs := by
  simp [zip3]

lemma zip3_proj (l : List (α × α × α)) :
    zip3 (l.map (·.1)) (l.map (·.2.1)) (l.map (·.2.2)) = l := by
  induction l with
  | nil => rfl
  | cons p l ih => simp [zip3] at ih ⊢; exact ih

lemma filterRow_eq_filter (nd : α) (xs ys zs : List α)
    (hx : xs.length = zs.length) (hy : ys.length = zs.length) :
    filterRow xs ys zs nd =
      (((zip3 xs ys zs).filter (fun p => p.2.2 ≠ nd)).map (·.1),
       ((zip3 xs ys zs).filter (fun p => p.2.2 ≠ nd)).map (·.2.1),
       ((zip3 xs ys zs).filter (fun p => p.2.2 ≠ nd)).map (·.2.2)) := by
  induction zs generalizing xs ys with
  | nil =>
    obtain rfl := List.length_eq_zero.mp hx
    obtain rfl := List.length_eq_zero.mp hy
    rfl
  | cons z zs ih =>
    cases xs with
    | nil => simp at hx
    | cons x xs =>
      cases ys with
      | nil => simp at hy
      | cons y ys =>
        have hx' : xs.length = zs.length := by simpa using hx
        have hy' : ys.length = zs.length := by simpa using hy
        by_cases hz : z = nd <;>
          simp [filterRow_cons, zip3_cons, List.filter_cons, hz,
            ih xs ys hx' hy']

lemma arange_eq_range_map (start stop step : α) (n : ℕ) (hstep : step ≠ 0)
    (hstop : stop - start = n * step) :
    arange start stop step =
      (List.range n).map (fun (i : ℕ) => start + (i : α) * step) := by
  unfold arange
  have hm : (⌈(stop - start) / step⌉).toNat = n := by
    rw [hstop, mul_div_assoc, div_self hstep, mul_one, Int.ceil_natCast,
      Int.toNat_natCast]
  rw [hm]

lemma arange_length (start stop step : α) (n : ℕ) (hstep : step ≠ 0)
    (hstop : stop - start = n * step) :
    (arange start stop step).length = n := by
  rw [arange_eq_range_map start stop step n hstep hstop, List.length_map,
    List.length_range]

lemma arange_getD (start stop step : α) (n i : ℕ) (hstep : step ≠ 0)
    (hstop : stop - start = n * step) (hi : i < n) :
    (arange start stop step).getD i 0 = start + (i : α) * step := by
  rw [arange_eq_range_map start stop step n hstep hstop,
    List.getD_eq_getElem _ _ (by simpa using hi)]
  simp

lemma rowVals_fst (sinf cosf : α → α) (t : GeoTransform α) (xsize y : ℕ) :
    (rowVals sinf cosf t xsize y).1 =
      if cosf t.c2 * t.c1 ≠ 0 then
        arange (getActualPoint sinf cosf 0 (y : α) t).1
          (getActualPoint sinf cosf (xsize : α) (y : α) t).1
          (cosf t.c2 * t.c1)
      else List.replicate xsize (getActualPoint sinf cosf 0 (y : α) t).1 := rfl

lemma rowVals_snd (sinf cosf : α → α) (t : GeoTransform α) (xsize y : ℕ) :
    (rowVals sinf cosf t xsize y).2 =
      if sinf t.c2 * t.c1 ≠ 0 then
        arange (getActualPoint sinf cosf 0 (y : α) t).2
          (getActualPoint sinf cosf (xsize : α) (y : α) t).2
          (sinf t.c2 * t.c1)
      else List.replicate xsize (getActualPoint sinf cosf 0 (y : α) t).2 := rfl

lemma rowVals_fst_length (sinf cosf : α → α) (t : GeoTransform α)
    (xsize y : ℕ) : (rowVals sinf cosf t xsize y).1.length = xsize := by
  rw [rowVals_fst]
  by_cases h : cosf t.c2 * t.c1 = 0
  · simp [h]
  · rw [if_pos h]
    refine arange_length _ _ _ xsize h ?_
    simp only [getActualPoint]
    ring

lemma rowVals_snd_length (sinf cosf : α → α) (t : GeoTransform α)
    (xsize y : ℕ) : (rowVals sinf cosf t xsize y).2.length = xsize := by
  rw [rowVals_snd]
  by_cases h : sinf t.c2 * t.c1 = 0
  · simp [h]
  · rw [if_pos h]
    refine arange_length _ _ _ xsize h ?_
    simp only [getActualPoint]
    ring

lemma scanIndices_lt (zvals : List α) (nd : α) :
    ∀ i ∈ scanIndices zvals nd, i < zvals.length := by
  intro i hi
  exact List.mem_range.mp (List.mem_filter.mp hi).1

/-- C1: for a scanline of `w` elevation samples with per-column coordinate
sequences of the same length, the filter of lines 143-146 returns exactly
the ordered subsequence of `(x, y, z)` triples at columns whose elevation
is not exactly equal to the no-data sentinel; an all-sentinel row yields
the empty result, and a sentinel-free row yields all `w` points in column
order. -/
theorem scanline_filter_correct (nd : α) (w : ℕ) (xs ys zs : List α)
    (hx : xs.length = w) (hy : ys.length = w) (hz : zs.length = w) :
    zip3 (filterRow xs ys zs nd).1 (filterRow xs ys zs nd).2.1
        (filterRow xs ys zs nd).2.2 =
      (zip3 xs ys zs).filter (fun p => p.2.2 ≠ nd) ∧
    ((∀ v ∈ zs, v = nd) → filterRow xs ys zs nd = ([], [], [])) ∧
    ((∀ v ∈ zs, v ≠ nd) →
      filterRow xs ys zs nd = (xs, ys, zs) ∧
      (filterRow xs ys zs nd).1.length = w) := by
  have hxz : xs.length = zs.length := by rw [hx, hz]
  have hyz : ys.length = zs.length := by rw [hy, hz]
  have he := filterRow_eq_filter nd xs ys zs hxz hyz
  refine ⟨?_, fun hall => ?_, fun hnone => ?_⟩
  · rw [he]
    exact zip3_proj _
  · have hnil : (zip3 xs ys zs).filter (fun p => p.2.2 ≠ nd) = [] := by
      refine List.filter_eq_nil_iff.mpr ?_
      rintro ⟨a, b, c⟩ hp
      have hc : c ∈ zs := (List.of_mem_zip (List.of_mem_zip hp).2).2
      simp [hall c hc]
    rw [he, hnil]
    rfl
  · have hall : (zip3 xs ys zs).filter (fun p => p.2.2 ≠ nd) = zip3 xs ys zs := by
      refine List.filter_eq_self.mpr ?_
      rintro ⟨a, b, c⟩ hp
      have hc : c ∈ zs := (List.of_mem_zip (List.of_mem_zip hp).2).2
      simp [hnone c hc]
    have hyzlen : (ys.zip zs).length = w := by
      rw [List.length_zip, hy, hz, min_self]
    have h1 : (zip3 xs ys zs).map (·.1) = xs :=
      List.map_fst_zip xs (ys.zip zs) (by rw [hx, hyzlen])
    have h2 : (zip3 xs ys zs).map Prod.snd = ys.zip zs :=
      List.map_snd_zip xs (ys.zip zs) (by rw [hx, hyzlen])
    have h21 : (zip3 xs ys zs).map (·.2.1) = ys := by
      have : (zip3 xs ys zs).map (·.2.1)
          = ((zip3 xs ys zs).map Prod.snd).map Prod.fst := by
        rw [List.map_map]; rfl
      rw [this, h2]
      exact List.map_fst_zip ys zs (by rw [hy, hz])
    have h22 : (zip3 xs ys zs).map (·.2.2) = zs := by
      have : (zip3 xs ys zs).map (·.2.2)
          = ((zip3 xs ys zs).map Prod.snd).map Prod.snd := by
        rw [List.map_map]; rfl
      rw [this, h2]
      exact List.map_snd_zip ys zs (by rw [hy, hz])
    have hfr : filterRow xs ys zs nd = (xs, ys, zs) := by
      rw [he, hall, h1, h21, h22]
    exact ⟨hfr, by rw [hfr]; exact hx⟩

/-- Witness for C1 at a concrete scanline. -/
theorem scanline_filter_correct_witness :
    ([(5 : ℚ)].length = 1 ∧ [(6 : ℚ)].length = 1 ∧ [(7 : ℚ)].length = 1) ∧
    (zip3 (filterRow [(5 : ℚ)] [6] [7] 0).1 (filterRow [(5 : ℚ)] [6] [7] 0).2.1
        (filterRow [(5 : ℚ)] [6] [7] 0).2.2 =
      (zip3 [(5 : ℚ)] [6] [7]).filter (fun p => p.2.2 ≠ 0) ∧
    ((∀ v ∈ [(7 : ℚ)], v = 0) → filterRow [(5 : ℚ)] [6] [7] 0 = ([], [], [])) ∧
    ((∀ v ∈ [(7 : ℚ)], v ≠ 0) →
      filterRow [(5 : ℚ)] [6] [7] 0 = ([5], [6], [7]) ∧
      (filterRow [(5 : ℚ)] [6] [7] 0).1.length = 1)) :=
  ⟨⟨by decide, by decide, by decide⟩,
    scanline_filter_correct 0 1 [5] [6] [7] (by decide) (by decide) (by decide)⟩

/-- C10: in exact arithmetic each branch of the per-row coordinate
generation yields exactly `xsize` elements (the evenly spaced sequence has
exactly `xsize` elements because the interval has exact length
`xsize·step`, end exclusive; the constant branch replicates `xsize`
copies), and every column index selected by the filter on a row of
`xsize` samples is strictly below `xsize`, so all accesses are in
bounds. -/
theorem row_generation_in_bounds (sinf cosf : α → α) (t : GeoTransform α)
    (xsize y : ℕ) (zvals : List α) (nd : α) (hz : zvals.length = xsize) :
    (rowVals sinf cosf t xsize y).1.length = xsize ∧
    (rowVals sinf cosf t xsize y).2.length = xsize ∧
    ∀ i ∈ scanIndices zvals nd, i < xsize :=
  ⟨rowVals_fst_length sinf cosf t xsize y,
   rowVals_snd_length sinf cosf t xsize y,
   fun i hi => hz ▸ scanIndices_lt zvals nd i hi⟩

/-- Witness for C10 at a concrete row. -/
theorem row_generation_in_bounds_witness :
    ([(1 : ℚ), 0, 3, 4].length = 4) ∧
    ((rowVals (fun _ => (0 : ℚ)) (fun _ => 1) ⟨0, 1, 0, 0, 0, 1⟩ 4 0).1.length = 4 ∧
     (rowVals (fun _ => (0 : ℚ)) (fun _ => 1) ⟨0, 1, 0, 0, 0, 1⟩ 4 0).2.length = 4 ∧
     ∀ i ∈ scanIndices [(1 : ℚ), 0, 3, 4] 0, i < 4) :=
  ⟨by decide,
   row_generation_in_bounds (fun _ => (0 : ℚ)) (fun _ => 1) ⟨0, 1, 0, 0, 0, 1⟩
     4 0 [1, 0, 3, 4] 0 (by decide)⟩

/-- C9 (amended): in exact arithmetic the per-row stepping of the source
agrees with evaluating the source's own per-column map `getActualPoint`
at every column, for every transform — rotation included — because the
step constants `dx = cos(rot)·resx` and `dy = sin(rot)·resx` are exactly
the per-column increments of `getActualPoint`'s x and y formulas. -/
theorem stepping_eq_per_column_map (sinf cosf : α → α) (t : GeoTransform α)
    (xsize y i : ℕ) (hi : i < xsize) :
    (rowVals sinf cosf t xsize y).1.getD i 0 =
      (getActualPoint sinf cosf (i : α) (y : α) t).1 ∧
    (rowVals sinf cosf t xsize y).2.getD i 0 =
      (getActualPoint sinf cosf (i : α) (y : α) t).2 := by
  constructor
  · rw [rowVals_fst]
    by_cases h : cosf t.c2 * t.c1 = 0
    · rw [if_neg (not_not_intro h),
        List.getD_eq_getElem _ _ (by simpa using hi), List.getElem_replicate]
      simp only [getActualPoint]
      have hzero : (i : α) * cosf t.c2 * t.c1 = 0 := by
        rw [mul_assoc, h, mul_zero]
      rw [hzero]
      ring
    · rw [if_pos h,
        arange_getD _ _ _ xsize i h (by simp only [getActualPoint]; ring) hi]
      simp only [getActualPoint]
      ring
  · rw [rowVals_snd]
    by_cases h : sinf t.c2 * t.c1 = 0
    · rw [if_neg (not_not_intro h),
        List.getD_eq_getElem _ _ (by simpa using hi), List.getElem_replicate]
      simp only [getActualPoint]
      have hzero : (i : α) * sinf t.c2 * t.c1 = 0 := by
        rw [mul_assoc, h, mul_zero]
      rw [hzero]
      ring
    · rw [if_pos h,
        arange_getD _ _ _ xsize i h (by simp only [getActualPoint]; ring) hi]
      simp only [getActualPoint]
      ring

/-- Witness for the amended C9 at a concrete column. -/
theorem stepping_eq_per_column_map_witness :
    (0 < 4) ∧
    ((rowVals (fun _ => (0 : ℚ)) (fun _ => 1) ⟨0, 1, 0, 0, 0, 1⟩ 4 2).1.getD 0 0 =
      (getActualPoint (fun _ => (0 : ℚ)) (fun _ => 1) 0 2 ⟨0, 1, 0, 0, 0, 1⟩).1 ∧
     (rowVals (fun _ => (0 : ℚ)) (fun _ => 1) ⟨0, 1, 0, 0, 0, 1⟩ 4 2).2.getD 0 0 =
      (getActualPoint (fun _ => (0 : ℚ)) (fun _ => 1) 0 2 ⟨0, 1, 0, 0, 0, 1⟩).2) :=
  ⟨by decide,
   stepping_eq_per_column_map (fun _ => (0 : ℚ)) (fun _ => 1) ⟨0, 1, 0, 0, 0, 1⟩
     4 2 0 (by decide)⟩

/-- Counterexample to C9 as stated: at the nonzero rotation `π/2` (with
both rotation coefficients equal to `π/2`), the per-row stepping agrees
with the per-column Mapper at every column of a 2-wide row — no column
diverges, so nonzero rotation does not imply divergence. -/
theorem stepping_counterexample :
    Real.pi / 2 ≠ 0 ∧
    (rowVals Real.sin Real.cos ⟨0, 1, Real.pi / 2, 0, Real.pi / 2, 1⟩ 2 1).1 =
      [(mapPointSpec Real.sin Real.cos 0 1 ⟨0, 1, Real.pi / 2, 0, Real.pi / 2, 1⟩).1,
       (mapPointSpec Real.sin Real.cos 1 1 ⟨0, 1, Real.pi / 2, 0, Real.pi / 2, 1⟩).1] ∧
    (rowVals Real.sin Real.cos ⟨0, 1, Real.pi / 2, 0, Real.pi / 2, 1⟩ 2 1).2 =
      [(mapPointSpec Real.sin Real.cos 0 1 ⟨0, 1, Real.pi / 2, 0, Real.pi / 2, 1⟩).2,
       (mapPointSpec Real.sin Real.cos 1 1 ⟨0, 1, Real.pi / 2, 0, Real.pi / 2, 1⟩).2] := by
  have haran : arange (0 : ℝ) 2 1 = [0, 1] := by
    rw [arange_eq_range_map 0 2 1 2 one_ne_zero (by norm_num)]
    norm_num [List.range_succ]
  refine ⟨by positivity, ?_, ?_⟩
  · rw [rowVals_fst]
    norm_num [getActualPoint, mapPointSpec, Real.sin_pi_div_two,
      Real.cos_pi_div_two, List.replicate]
  · rw [rowVals_snd]
    norm_num [getActualPoint, mapPointSpec, Real.sin_pi_div_two,
      Real.cos_pi_div_two, haran]

/-- Counterexample to C2 as stated: the spec formula reads the fifth
coefficient (`rotation2`) in the row terms, but the source reads the
third coefficient there as well, so on a transform whose third and fifth
coefficients differ the two maps disagree. -/
theorem mapper_formula_counterexample :
    getActualPoint Real.sin Real.cos 0 1 ⟨0, 1, 0, 0, Real.pi / 2, 1⟩ ≠
      mapPointSpec Real.sin Real.cos 0 1 ⟨0, 1, 0, 0, Real.pi / 2, 1⟩ := by
  simp only [getActualPoint, mapPointSpec, Prod.mk.injEq, not_and]
  intro h
  norm_num [Real.sin_zero, Real.cos_zero, Real.sin_pi_div_two,
    Real.cos_pi_div_two] at h

/-- C2 (amended): getActualPoint is a pure total function and matches
the spec's Mapper formula exactly when the transform's third and fifth
coefficients coincide (the source reads the third coefficient in all four
trigonometric terms). -/
theorem mapper_formula_amended (sinf cosf : α → α) (lx ly : α)
    (t : GeoTransform α) (h : t.c2 = t.c4) :
    getActualPoint sinf cosf lx ly t = mapPointSpec sinf cosf lx ly t := by
  simp [getActualPoint, mapPointSpec, h]

/-- Witness for the amended C2 at a concrete transform. -/
theorem mapper_formula_amended_witness :
    ((⟨0, 1, 0, 0, 0, 1⟩ : GeoTransform ℚ).c2 = (⟨0, 1, 0, 0, 0, 1⟩ : GeoTransform ℚ).c4) ∧
    getActualPoint (fun _ => (0 : ℚ)) (fun _ => 1) 2 3 ⟨0, 1, 0, 0, 0, 1⟩ =
      mapPointSpec (fun _ => (0 : ℚ)) (fun _ => 1) 2 3 ⟨0, 1, 0, 0, 0, 1⟩ :=
  ⟨by decide,
   mapper_formula_amended (fun _ => (0 : ℚ)) (fun _ => 1) 2 3 ⟨0, 1, 0, 0, 0, 1⟩
     (by decide)⟩

lemma min?_nonempty (l : List α) (h : l ≠ []) : ∃ m, l.min? = some m := by
  cases l with
  | nil => exact absurd rfl h
  | cons a l => exact ⟨_, rfl⟩

lemma saveLasFile_eq (xs ys zs : List α) (i : ℕ) (mx my mz : α)
    (hmx : xs.min? = some mx) (hmy : ys.min? = some my)
    (hmz : zs.min? = some mz) :
    saveLasFile xs ys zs i =
      some ⟨i, xs, ys, zs, ((⌊mx⌋ : α), (⌊my⌋ : α), (⌊mz⌋ : α)), lasScale⟩ := by
  unfold saveLasFile
  rw [hmx, hmy, hmz]

lemma saveLasFile_empty (ys zs : List α) (i : ℕ) :
    saveLasFile ([] : List α) ys zs i = none := rfl

lemma saveLasFile_inv {xs ys zs : List α} {i : ℕ} {f : LasFile α}
    (h : saveLasFile xs ys zs i = some f) :
    ∃ mx my mz, xs.min? = some mx ∧ ys.min? = some my ∧ zs.min? = some mz ∧
      f = ⟨i, xs, ys, zs, ((⌊mx⌋ : α), (⌊my⌋ : α), (⌊mz⌋ : α)), lasScale⟩ := by
  unfold saveLasFile at h
  rcases hmx : xs.min? with _ | mx <;> rw [hmx] at h
  · simp at h
  · rcases hmy : ys.min? with _ | my <;> rw [hmy] at h
    · simp at h
    · rcases hmz : zs.min? with _ | mz <;> rw [hmz] at h
      · simp at h
      · injection h with h
        exact ⟨mx, my, mz, rfl, rfl, rfl, h.symm⟩

lemma filterRow_lengths (xv yv zv : List α) (nd : α) :
    (filterRow xv yv zv nd).1.length = (scanIndices zv nd).length ∧
    (filterRow xv yv zv nd).2.1.length = (scanIndices zv nd).length ∧
    (filterRow xv yv zv nd).2.2.length = (scanIndices zv nd).length := by
  simp [filterRow]

lemma appendRow_lengths (st : PipeState α) (xv yv zv : List α) (nd : α) :
    (appendRow st xv yv zv nd).xvalues.length
        = st.xvalues.length + (scanIndices zv nd).length ∧
    (appendRow st xv yv zv nd).yvalues.length
        = st.yvalues.length + (scanIndices zv nd).length ∧
    (appendRow st xv yv zv nd).zvalues.length
        = st.zvalues.length + (scanIndices zv nd).length := by
  simp [appendRow, filterRow]

lemma appendRow_files (st : PipeState α) (xv yv zv : List α) (nd : α) :
    (appendRow st xv yv zv nd).files = st.files := rfl

lemma appendRow_file_i (st : PipeState α) (xv yv zv : List α) (nd : α) :
    (appendRow st xv yv zv nd).file_i = st.file_i := rfl

lemma ingestRow_bound {nd : α} {lim : ℕ} {sinf cosf : α → α}
    {t : GeoTransform α} {xsize : ℕ} {st : PipeState α} {y : ℕ}
    {values : List α} {st' : PipeState α}
    (h : ingestRow nd lim sinf cosf t xsize st y values = some st') :
    st'.xvalues.length ≤ lim := by
  simp only [ingestRow] at h
  by_cases hgt : (appendRow st (rowVals sinf cosf t xsize y).1
      (rowVals sinf cosf t xsize y).2 values nd).xvalues.length > lim
  · rw [if_pos hgt] at h
    rcases hsv : saveLasFile (appendRow st (rowVals sinf cosf t xsize y).1
        (rowVals sinf cosf t xsize y).2 values nd).xvalues
        (appendRow st (rowVals sinf cosf t xsize y).1
          (rowVals sinf cosf t xsize y).2 values nd).yvalues
        (appendRow st (rowVals sinf cosf t xsize y).1
          (rowVals sinf cosf t xsize y).2 values nd).zvalues
        (appendRow st (rowVals sinf cosf t xsize y).1
          (rowVals sinf cosf t xsize y).2 values nd).file_i with _ | f <;>
      rw [hsv] at h
    · cases h
    · injection h with h
      subst h
      simp
  · rw [if_neg hgt] at h
    injection h with h
    subst h
    exact Nat.le_of_not_lt hgt

lemma runRows_bound {nd : α} {lim : ℕ} {sinf cosf : α → α}
    {t : GeoTransform α} {xsize : ℕ} {st : PipeState α} {y : ℕ}
    {rows : List (List α)} {st' : PipeState α}
    (hst : st.xvalues.length ≤ lim)
    (h : runRows nd lim sinf cosf t xsize st y rows = LoopOutcome.done st') :
    st'.xvalues.length ≤ lim := by
  induction rows generalizing st y with
  | nil =>
    simp only [runRows] at h
    injection h with h
    subst h
    exact hst
  | cons values rest ih =>
    simp only [runRows] at h
    rcases hig : ingestRow nd lim sinf cosf t xsize st y values with _ | st1 <;>
      rw [hig] at h
    · cases h
    · exact ih (ingestRow_bound hig) h

lemma ingestRow_inv {nd : α} {lim : ℕ} {sinf cosf : α → α}
    {t : GeoTransform α} {xsize : ℕ} {st : PipeState α} {y : ℕ}
    {values : List α} {st' : PipeState α}
    (h : ingestRow nd lim sinf cosf t xsize st y values = some st') :
    ((appendRow st (rowVals sinf cosf t xsize y).1
        (rowVals sinf cosf t xsize y).2 values nd).xvalues.length ≤ lim ∧
      st' = appendRow st (rowVals sinf cosf t xsize y).1
        (rowVals sinf cosf t xsize y).2 values nd) ∨
    ((appendRow st (rowVals sinf cosf t xsize y).1
        (rowVals sinf cosf t xsize y).2 values nd).xvalues.length > lim ∧
      ∃ f, saveLasFile
          (appendRow st (rowVals sinf cosf t xsize y).1
            (rowVals sinf cosf t xsize y).2 values nd).xvalues
          (appendRow st (rowVals sinf cosf t xsize y).1
            (rowVals sinf cosf t xsize y).2 values nd).yvalues
          (appendRow st (rowVals sinf cosf t xsize y).1
            (rowVals sinf cosf t xsize y).2 values nd).zvalues
          st.file_i = some f ∧
        st' = ⟨[], [], [], st.file_i + 1, st.files ++ [f]⟩) := by
  simp only [ingestRow] at h
  by_cases hgt : (appendRow st (rowVals sinf cosf t xsize y).1
      (rowVals sinf cosf t xsize y).2 values nd).xvalues.length > lim
  · rw [if_pos hgt] at h
    rcases hsv : saveLasFile (appendRow st (rowVals sinf cosf t xsize y).1
        (rowVals sinf cosf t xsize y).2 values nd).xvalues
        (appendRow st (rowVals sinf cosf t xsize y).1
          (rowVals sinf cosf t xsize y).2 values nd).yvalues
        (appendRow st (rowVals sinf cosf t xsize y).1
          (rowVals sinf cosf t xsize y).2 values nd).zvalues
        (appendRow st (rowVals sinf cosf t xsize y).1
          (rowVals sinf cosf t xsize y).2 values nd).file_i with _ | f <;>
      rw [hsv] at h
    · cases h
    · injection h with h
      exact Or.inr ⟨hgt, f, hsv, h.symm⟩
  · rw [if_neg hgt] at h
    injection h with h
    exact Or.inl ⟨Nat.le_of_not_lt hgt, h.symm⟩

lemma ingestRow_accounting {nd : α} {lim : ℕ} {sinf cosf : α → α}
    {t : GeoTransform α} {xsize : ℕ} {st : PipeState α} {y : ℕ}
    {values : List α} {st' : PipeState α}
    (h : ingestRow nd lim sinf cosf t xsize st y values = some st') :
    filesPoints st'.files + st'.xvalues.length
      = filesPoints st.files + st.xvalues.length
          + (scanIndices values nd).length ∧
    ((∀ f ∈ st.files, lim < f.xs.length) →
      ∀ f ∈ st'.files, lim < f.xs.length) := by
  rcases ingestRow_inv h with ⟨hle, rfl⟩ | ⟨hgt, f, hsv, rfl⟩
  · refine ⟨?_, fun hp => ?_⟩
    · rw [appendRow_files, (appendRow_lengths st _ _ values nd).1]
      ring
    · rw [appendRow_files]
      exact hp
  · obtain ⟨mx, my, mz, hmx, hmy, hmz, rfl⟩ := saveLasFile_inv hsv
    constructor
    · show filesPoints (st.files ++ [_]) + 0 = _
      rw [filesPoints, List.map_append, List.sum_append]
      show filesPoints st.files + (appendRow st (rowVals sinf cosf t xsize y).1
          (rowVals sinf cosf t xsize y).2 values nd).xvalues.length + 0 + 0 = _
      rw [(appendRow_lengths st _ _ values nd).1]
      ring
    · intro hp f hf
      rcases List.mem_append.mp hf with hf | hf
      · exact hp f hf
      · rcases List.mem_singleton.mp hf with rfl
        show lim < (appendRow st (rowVals sinf cosf t xsize y).1
          (rowVals sinf cosf t xsize y).2 values nd).xvalues.length
        exact hgt

lemma runRows_accounting {nd : α} {lim : ℕ} {sinf cosf : α → α}
    {t : GeoTransform α} {xsize : ℕ} {st : PipeState α} {y : ℕ}
    {rows : List (List α)} {st' : PipeState α}
    (h : runRows nd lim sinf cosf t xsize st y rows = LoopOutcome.done st')
    (hgood : ∀ f ∈ st.files, lim < f.xs.length) :
    filesPoints st'.files + st'.xvalues.length
      = filesPoints st.files + st.xvalues.length + totalValidPoints nd rows ∧
    ∀ f ∈ st'.files, lim < f.xs.length := by
  induction rows generalizing st y with
  | nil =>
    simp only [runRows] at h
    injection h with h
    subst h
    exact ⟨by simp [totalValidPoints], hgood⟩
  | cons values rest ih =>
    simp only [runRows] at h
    rcases hig : ingestRow nd lim sinf cosf t xsize st y values with _ | st1 <;>
      rw [hig] at h
    · cases h
    · obtain ⟨hacc, hmono⟩ := ingestRow_accounting hig
      obtain ⟨hacc', hgood'⟩ := ih h (hmono hgood)
      refine ⟨?_, hgood'⟩
      rw [hacc', hacc]
      simp [totalValidPoints]
      ring

lemma length_le_filesPoints {lim : ℕ} {fs : List (LasFile α)}
    (hgood : ∀ f ∈ fs, lim < f.xs.length) :
    fs.length * (lim + 1) ≤ filesPoints fs := by
  induction fs with
  | nil => simp [filesPoints]
  | cons f fs ih =>
    have h1 : lim + 1 ≤ f.xs.length := hgood f (by simp)
    have h2 := ih (fun g hg => hgood g (by simp [hg]))
    have h3 : filesPoints (f :: fs) = f.xs.length + filesPoints fs := by
      simp [filesPoints]
    rw [h3, List.length_cons]
    calc (fs.length + 1) * (lim + 1) = (lim + 1) + fs.length * (lim + 1) := by
          ring
    _ ≤ f.xs.length + filesPoints fs := Nat.add_le_add h1 h2

lemma ingestRow_lockstep {nd : α} {lim : ℕ} {sinf cosf : α → α}
    {t : GeoTransform α} {xsize : ℕ} {st : PipeState α} {y : ℕ}
    {values : List α} {st' : PipeState α}
    (hxy : st.xvalues.length = st.yvalues.length)
    (hxz : st.xvalues.length = st.zvalues.length)
    (h : ingestRow nd lim sinf cosf t xsize st y values = some st') :
    st'.xvalues.length = st'.yvalues.length ∧
    st'.xvalues.length = st'.zvalues.length := by
  rcases ingestRow_inv h with ⟨hle, rfl⟩ | ⟨hgt, f, hsv, rfl⟩
  · obtain ⟨e1, e2, e3⟩ := appendRow_lengths st (rowVals sinf cosf t xsize y).1
      (rowVals sinf cosf t xsize y).2 values nd
    rw [e1, e2, e3]
    omega
  · exact ⟨rfl, rfl⟩

lemma runRows_lockstep {nd : α} {lim : ℕ} {sinf cosf : α → α}
    {t : GeoTransform α} {xsize : ℕ} {st : PipeState α} {y : ℕ}
    {rows : List (List α)} {st' : PipeState α}
    (hxy : st.xvalues.length = st.yvalues.length)
    (hxz : st.xvalues.length = st.zvalues.length)
    (h : runRows nd lim sinf cosf t xsize st y rows = LoopOutcome.done st') :
    st'.xvalues.length = st'.yvalues.length ∧
    st'.xvalues.length = st'.zvalues.length := by
  induction rows generalizing st y with
  | nil =>
    simp only [runRows] at h
    injection h with h
    subst h
    exact ⟨hxy, hxz⟩
  | cons values rest ih =>
    simp only [runRows] at h
    rcases hig : ingestRow nd lim sinf cosf t xsize st y values with _ | st1 <;>
      rw [hig] at h
    · cases h
    · obtain ⟨h1, h2⟩ := ingestRow_lockstep hxy hxz hig
      exact ih h1 h2 h

lemma saveLasFile_good {xs ys zs : List α} {i : ℕ} {f : LasFile α}
    (h : saveLasFile xs ys zs i = some f) : GoodChunk f := by
  obtain ⟨mx, my, mz, hmx, hmy, hmz, rfl⟩ := saveLasFile_inv h
  refine ⟨?_, ⟨mx, hmx, rfl⟩, ⟨my, hmy, rfl⟩, ⟨mz, hmz, rfl⟩, rfl⟩
  intro h0
  simp only [] at h0
  subst h0
  simp at hmx

lemma ingestRow_good {nd : α} {lim : ℕ} {sinf cosf : α → α}
    {t : GeoTransform α} {xsize : ℕ} {st : PipeState α} {y : ℕ}
    {values : List α} {st' : PipeState α}
    (h : ingestRow nd lim sinf cosf t xsize st y values = some st')
    (hp : ∀ f ∈ st.files, GoodChunk f) :
    ∀ f ∈ st'.files, GoodChunk f := by
  rcases ingestRow_inv h with ⟨hle, rfl⟩ | ⟨hgt, f, hsv, rfl⟩
  · rw [appendRow_files]
    exact hp
  · intro g hg
    rcases List.mem_append.mp hg with hg | hg
    · exact hp g hg
    · rcases List.mem_singleton.mp hg with rfl
      exact saveLasFile_good hsv

lemma runRows_good {nd : α} {lim : ℕ} {sinf cosf : α → α}
    {t : GeoTransform α} {xsize : ℕ} (st : PipeState α) (y : ℕ)
    (rows : List (List α))
    (hp : ∀ f ∈ st.files, GoodChunk f) :
    (∀ st', runRows nd lim sinf cosf t xsize st y rows = LoopOutcome.done st' →
      ∀ f ∈ st'.files, GoodChunk f) ∧
    (∀ gs, runRows nd lim sinf cosf t xsize st y rows = LoopOutcome.writeError gs →
      ∀ f ∈ gs, GoodChunk f) := by
  induction rows generalizing st y with
  | nil =>
    refine ⟨fun st' h => ?_, fun gs h => ?_⟩
    · simp only [runRows] at h
      injection h with h
      subst h
      exact hp
    · simp only [runRows] at h
      cases h
  | cons values rest ih =>
    refine ⟨fun st' h => ?_, fun gs h => ?_⟩ <;> simp only [runRows] at h <;>
      rcases hig : ingestRow nd lim sinf cosf t xsize st y values with _ | st1 <;>
      rw [hig] at h
    · cases h
    · exact (ih st1 (y + 1) (ingestRow_good hig hp)).1 st' h
    · injection h with h
      subst h
      exact hp
    · exact (ih st1 (y + 1) (ingestRow_good hig hp)).2 gs h

lemma q_rowVals (xsize y : ℕ) :
    rowVals (fun _ => (0 : ℚ)) (fun _ => 1) ⟨0, 1, 0, 0, 0, 1⟩ xsize y =
      ((List.range xsize).map (fun (i : ℕ) => (i : ℚ)),
       List.replicate xsize (y : ℚ)) := by
  refine Prod.ext ?_ ?_
  · rw [rowVals_fst, if_pos (by norm_num)]
    rw [arange_eq_range_map _ _ _ xsize (by norm_num)
      (by simp [getActualPoint]; try ring)]
    norm_num [getActualPoint]
  · rw [rowVals_snd, if_neg (by norm_num)]
    norm_num [getActualPoint]

lemma r_rowVals (y : ℕ) :
    rowVals Real.sin Real.cos ⟨0, 1, 0, 0, 0, -1⟩ 4 y =
      ([0, 1, 2, 3], List.replicate 4 (-(y : ℝ))) := by
  refine Prod.ext ?_ ?_
  · rw [rowVals_fst, if_pos (by norm_num [Real.cos_zero])]
    rw [arange_eq_range_map _ _ _ 4 (by norm_num [Real.cos_zero])
      (by simp [getActualPoint, Real.cos_zero, Real.sin_zero]; try ring)]
    norm_num [getActualPoint, Real.cos_zero, Real.sin_zero, List.range_succ]
  · rw [rowVals_snd, if_neg (by norm_num [Real.sin_zero])]
    congr 1
    simp [getActualPoint, Real.sin_zero, Real.cos_zero]

lemma qrun_lim1 :
    runPipeline (0 : ℚ) 1 (fun _ => 0) (fun _ => 1) ⟨0, 1, 0, 0, 0, 1⟩ 1 [[1]]
      = RunOutcome.ok
          [⟨0, [0], [0], [1], (0, 0, 1), (1 / 1000, 1 / 1000, 1 / 1000)⟩] := by
  norm_num [runPipeline, runRows, ingestRow, q_rowVals, appendRow, filterRow,
    scanIndices, initState, saveLasFile, lasScale, List.range_succ, List.min?,
    List.filter_cons, min_def, List.replicate]

lemma qrows_lim1 :
    runRows (0 : ℚ) 1 (fun _ => 0) (fun _ => 1) ⟨0, 1, 0, 0, 0, 1⟩ 1
        initState 0 [[1]]
      = LoopOutcome.done ⟨[0], [0], [1], 0, []⟩ := by
  norm_num [runRows, ingestRow, q_rowVals, appendRow, filterRow, scanIndices,
    initState, List.range_succ, List.filter_cons, List.replicate]

/-- C3: starting from a buffer within the limit, one row's append brings
the buffer to at most `limit` plus that row's surviving point count; the
post-row flush check restores the buffer to at most `limit`; and the
whole row loop keeps the resident buffer at most `limit` after every row,
independent of how many rows the raster has. -/
theorem chunk_size_invariant (nd : α) (lim : ℕ) (sinf cosf : α → α)
    (t : GeoTransform α) (xsize : ℕ) (st : PipeState α) (y : ℕ)
    (values : List α) (hst : st.xvalues.length ≤ lim) :
    (appendRow st (rowVals sinf cosf t xsize y).1
        (rowVals sinf cosf t xsize y).2 values nd).xvalues.length
      ≤ lim + (scanIndices values nd).length ∧
    (∀ st', ingestRow nd lim sinf cosf t xsize st y values = some st' →
      st'.xvalues.length ≤ lim) ∧
    (∀ rows st',
      runRows nd lim sinf cosf t xsize st y rows = LoopOutcome.done st' →
      st'.xvalues.length ≤ lim) := by
  refine ⟨?_, fun st' h => ingestRow_bound h,
    fun rows st' h => runRows_bound hst h⟩
  rw [(appendRow_lengths st _ _ values nd).1]
  exact Nat.add_le_add_right hst _

/-- Witness for C3 at a concrete state and row. -/
theorem chunk_size_invariant_witness :
    ((initState : PipeState ℚ).xvalues.length ≤ 2) ∧
    ((appendRow (initState : PipeState ℚ)
        (rowVals (fun _ => 0) (fun _ => 1) ⟨0, 1, 0, 0, 0, 1⟩ 2 0).1
        (rowVals (fun _ => 0) (fun _ => 1) ⟨0, 1, 0, 0, 0, 1⟩ 2 0).2
        [1, 0] 0).xvalues.length
      ≤ 2 + (scanIndices [(1 : ℚ), 0] 0).length ∧
    (∀ st', ingestRow (0 : ℚ) 2 (fun _ => 0) (fun _ => 1) ⟨0, 1, 0, 0, 0, 1⟩
        2 initState 0 [1, 0] = some st' → st'.xvalues.length ≤ 2) ∧
    (∀ rows st', runRows (0 : ℚ) 2 (fun _ => 0) (fun _ => 1) ⟨0, 1, 0, 0, 0, 1⟩
        2 initState 0 rows = LoopOutcome.done st' →
      st'.xvalues.length ≤ 2)) :=
  ⟨by decide,
   chunk_size_invariant 0 2 (fun _ => 0) (fun _ => 1) ⟨0, 1, 0, 0, 0, 1⟩ 2
     initState 0 [1, 0] (by decide)⟩

/-- C4 (amended): on a successful run the number of output files is at
most `⌊totalValidPoints / limit⌋ + 1`; it can be strictly smaller, because
the flush check is per-row, so one chunk may hold up to a full extra
scanline beyond the limit and exact equality fails in general. -/
theorem file_count_bound (nd : α) (lim : ℕ) (sinf cosf : α → α)
    (t : GeoTransform α) (xsize : ℕ) (rows : List (List α))
    (fs : List (LasFile α)) (hlim : 0 < lim)
    (h : runPipeline nd lim sinf cosf t xsize rows = RunOutcome.ok fs) :
    fs.length ≤ totalValidPoints nd rows / lim + 1 := by
  unfold runPipeline at h
  cases hrun : runRows nd lim sinf cosf t xsize initState 0 rows with
  | writeError gs =>
    rw [hrun] at h
    replace h : RunOutcome.writeError gs = RunOutcome.ok fs := h
    cases h
  | done st =>
    rw [hrun] at h
    replace h : (match saveLasFile st.xvalues st.yvalues st.zvalues st.file_i with
      | some f => RunOutcome.ok (st.files ++ [f])
      | none => RunOutcome.writeError st.files) = RunOutcome.ok fs := h
    rcases hsv : saveLasFile st.xvalues st.yvalues st.zvalues st.file_i
      with _ | f <;> rw [hsv] at h
    · replace h : RunOutcome.writeError st.files = RunOutcome.ok fs := h
      cases h
    · replace h : RunOutcome.ok (st.files ++ [f]) = RunOutcome.ok fs := h
      injection h with h
      subst h
      obtain ⟨hacc, hgood⟩ := runRows_accounting hrun
        (fun f hf => absurd hf (by simp [initState]))
      have hinit1 : filesPoints (initState : PipeState α).files = 0 := rfl
      have hinit2 : (initState : PipeState α).xvalues.length = 0 := rfl
      rw [hinit1, hinit2] at hacc
      have h1 : st.files.length * (lim + 1) ≤ totalValidPoints nd rows :=
        le_trans (length_le_filesPoints hgood) (by omega)
      have h2 : st.files.length ≤ totalValidPoints nd rows / (lim + 1) :=
        (Nat.le_div_iff_mul_le (Nat.succ_pos lim)).mpr h1
      have h3 : totalValidPoints nd rows / (lim + 1)
          ≤ totalValidPoints nd rows / lim :=
        Nat.div_le_div_left (Nat.le_succ lim) hlim
      rw [List.length_append]
      simp only [List.length_singleton]
      omega

/-- Witness for the amended C4 at a concrete run. -/
theorem file_count_bound_witness :
    (0 < 1) ∧
    (runPipeline (0 : ℚ) 1 (fun _ => 0) (fun _ => 1) ⟨0, 1, 0, 0, 0, 1⟩ 1 [[1]]
      = RunOutcome.ok
          [⟨0, [0], [0], [1], (0, 0, 1), (1 / 1000, 1 / 1000, 1 / 1000)⟩]) ∧
    ([(⟨0, [0], [0], [1], (0, 0, 1), (1 / 1000, 1 / 1000, 1 / 1000)⟩ :
        LasFile ℚ)].length ≤ totalValidPoints (0 : ℚ) [[1]] / 1 + 1) :=
  ⟨by decide, qrun_lim1,
   file_count_bound 0 1 (fun _ => 0) (fun _ => 1) ⟨0, 1, 0, 0, 0, 1⟩ 1 [[1]]
     [⟨0, [0], [0], [1], (0, 0, 1), (1 / 1000, 1 / 1000, 1 / 1000)⟩]
     (by decide) qrun_lim1⟩

/-- Counterexample to C4 as stated: 7 valid points with limit 3 (rows of
3, 3 and 1 surviving points) produce 2 output files, while the claimed
formula `⌊7/3⌋ + 1` predicts 3 — the first flush happens only after the
second full row, with 6 points already in the chunk. -/
theorem file_count_counterexample :
    runPipeline (0 : ℚ) 3 (fun _ => 0) (fun _ => 1) ⟨0, 1, 0, 0, 0, 1⟩ 3
        [[1, 1, 1], [1, 1, 1], [1, 0, 0]]
      = RunOutcome.ok
          [⟨0, [0, 1, 2, 0, 1, 2], [0, 0, 0, 1, 1, 1], [1, 1, 1, 1, 1, 1],
            (0, 0, 1), (1 / 1000, 1 / 1000, 1 / 1000)⟩,
           ⟨1, [0], [2], [1], (0, 2, 1), (1 / 1000, 1 / 1000, 1 / 1000)⟩] ∧
    countFiles (runPipeline (0 : ℚ) 3 (fun _ => 0) (fun _ => 1)
        ⟨0, 1, 0, 0, 0, 1⟩ 3 [[1, 1, 1], [1, 1, 1], [1, 0, 0]]) = 2 ∧
    totalValidPoints (0 : ℚ) [[1, 1, 1], [1, 1, 1], [1, 0, 0]] / 3 + 1 = 3 := by
  refine ⟨?_, ?_, ?_⟩ <;>
    norm_num [runPipeline, runRows, ingestRow, q_rowVals, appendRow, filterRow,
      scanIndices, initState, saveLasFile, lasScale, totalValidPoints,
      countFiles, List.range_succ, List.min?, List.filter_cons, min_def,
      List.replicate]

/-- C5 (amended): the final flush is attempted exactly once after the
last row regardless of the buffer's size, but a flush on an empty buffer
fails — `numpy.min` of an empty array raises — so a run whose points were
all flushed mid-run ends in an error instead of writing an empty file;
when the final buffer is non-empty the final flush succeeds and appends
exactly one more file. -/
theorem final_flush (nd : α) (lim : ℕ) (sinf cosf : α → α)
    (t : GeoTransform α) (xsize : ℕ) (rows : List (List α)) (st : PipeState α)
    (h : runRows nd lim sinf cosf t xsize initState 0 rows
      = LoopOutcome.done st) :
    (st.xvalues = [] →
      runPipeline nd lim sinf cosf t xsize rows
        = RunOutcome.writeError st.files) ∧
    (st.xvalues ≠ [] →
      ∃ f, saveLasFile st.xvalues st.yvalues st.zvalues st.file_i = some f ∧
        runPipeline nd lim sinf cosf t xsize rows
          = RunOutcome.ok (st.files ++ [f])) := by
  constructor
  · intro hnil
    unfold runPipeline
    rw [h]
    show (match saveLasFile st.xvalues st.yvalues st.zvalues st.file_i with
      | some f => RunOutcome.ok (st.files ++ [f])
      | none => RunOutcome.writeError st.files) = RunOutcome.writeError st.files
    rw [hnil, saveLasFile_empty]
  · intro hne
    obtain ⟨hxy, hxz⟩ := runRows_lockstep rfl rfl h
    have hy : st.yvalues ≠ [] := by
      intro h0
      apply hne
      apply List.length_eq_zero.mp
      rw [hxy, h0]
      rfl
    have hz : st.zvalues ≠ [] := by
      intro h0
      apply hne
      apply List.length_eq_zero.mp
      rw [hxz, h0]
      rfl
    obtain ⟨mx, hmx⟩ := min?_nonempty _ hne
    obtain ⟨my, hmy⟩ := min?_nonempty _ hy
    obtain ⟨mz, hmz⟩ := min?_nonempty _ hz
    refine ⟨_, saveLasFile_eq _ _ _ _ mx my mz hmx hmy hmz, ?_⟩
    unfold runPipeline
    rw [h]
    show (match saveLasFile st.xvalues st.yvalues st.zvalues st.file_i with
      | some f => RunOutcome.ok (st.files ++ [f])
      | none => RunOutcome.writeError st.files) = _
    rw [saveLasFile_eq _ _ _ _ mx my mz hmx hmy hmz]

/-- Witness for the amended C5 at a concrete run with a non-empty final
buffer. -/
theorem final_flush_witness :
    (runRows (0 : ℚ) 1 (fun _ => 0) (fun _ => 1) ⟨0, 1, 0, 0, 0, 1⟩ 1
        initState 0 [[1]] = LoopOutcome.done ⟨[0], [0], [1], 0, []⟩) ∧
    ((([0] : List ℚ) = [] →
      runPipeline (0 : ℚ) 1 (fun _ => 0) (fun _ => 1) ⟨0, 1, 0, 0, 0, 1⟩ 1
          [[1]] = RunOutcome.writeError []) ∧
    (([0] : List ℚ) ≠ [] →
      ∃ f, saveLasFile [(0 : ℚ)] [0] [1] 0 = some f ∧
        runPipeline (0 : ℚ) 1 (fun _ => 0) (fun _ => 1) ⟨0, 1, 0, 0, 0, 1⟩ 1
          [[1]] = RunOutcome.ok ([] ++ [f]))) :=
  ⟨qrows_lim1,
   final_flush 0 1 (fun _ => 0) (fun _ => 1) ⟨0, 1, 0, 0, 0, 1⟩ 1 [[1]]
     ⟨[0], [0], [1], 0, []⟩ qrows_lim1⟩

/-- Counterexample to C5 as stated: with limit 0 the single surviving
point is flushed mid-run, the final flush runs on an empty buffer, and
the run ends in a write error — no empty final file is produced. -/
theorem final_flush_counterexample :
    runPipeline (0 : ℚ) 0 (fun _ => 0) (fun _ => 1) ⟨0, 1, 0, 0, 0, 1⟩ 1 [[1]]
      = RunOutcome.writeError
          [⟨0, [0], [0], [1], (0, 0, 1), (1 / 1000, 1 / 1000, 1 / 1000)⟩] := by
  norm_num [runPipeline, runRows, ingestRow, q_rowVals, appendRow, filterRow,
    scanIndices, initState, saveLasFile, lasScale, List.range_succ, List.min?,
    List.filter_cons, min_def, List.replicate]

/-- C6: every chunk a run writes — on success or before a crash — is
non-empty, carries as offset the component-wise floor of the minima of
exactly its own buffered x, y and z lists, and carries the fixed scale
`(0.001, 0.001, 0.001)`. -/
theorem chunk_offset_scale (nd : α) (lim : ℕ) (sinf cosf : α → α)
    (t : GeoTransform α) (xsize : ℕ) (rows : List (List α))
    (fs : List (LasFile α))
    (h : runPipeline nd lim sinf cosf t xsize rows = RunOutcome.ok fs ∨
         runPipeline nd lim sinf cosf t xsize rows = RunOutcome.writeError fs) :
    ∀ f ∈ fs, GoodChunk f := by
  unfold runPipeline at h
  cases hrun : runRows nd lim sinf cosf t xsize initState 0 rows with
  | writeError gs =>
    rw [hrun] at h
    replace h : RunOutcome.writeError gs = RunOutcome.ok fs ∨
        RunOutcome.writeError gs = RunOutcome.writeError fs := h
    have hg := (runRows_good initState 0 rows
      (fun f hf => absurd hf (by simp [initState]))).2 gs hrun
    rcases h with h | h
    · cases h
    · injection h with h
      subst h
      exact hg
  | done st =>
    rw [hrun] at h
    replace h : (match saveLasFile st.xvalues st.yvalues st.zvalues st.file_i with
        | some f => RunOutcome.ok (st.files ++ [f])
        | none => RunOutcome.writeError st.files) = RunOutcome.ok fs ∨
      (match saveLasFile st.xvalues st.yvalues st.zvalues st.file_i with
        | some f => RunOutcome.ok (st.files ++ [f])
        | none => RunOutcome.writeError st.files) = RunOutcome.writeError fs := h
    have hg := (runRows_good initState 0 rows
      (fun f hf => absurd hf (by simp [initState]))).1 st hrun
    rcases hsv : saveLasFile st.xvalues st.yvalues st.zvalues st.file_i
      with _ | f0 <;> rw [hsv] at h
    · rcases h with h | h
      · replace h : RunOutcome.writeError st.files = RunOutcome.ok fs := h
        cases h
      · replace h : RunOutcome.writeError st.files
            = RunOutcome.writeError fs := h
        injection h with h
        subst h
        exact hg
    · rcases h with h | h
      · replace h : RunOutcome.ok (st.files ++ [f0]) = RunOutcome.ok fs := h
        injection h with h
        subst h
        intro f hf
        rcases List.mem_append.mp hf with hf | hf
        · exact hg f hf
        · rcases List.mem_singleton.mp hf with rfl
          exact saveLasFile_good hsv
      · replace h : RunOutcome.ok (st.files ++ [f0])
            = RunOutcome.writeError fs := h
        cases h

/-- Witness for C6 at a concrete run. -/
theorem chunk_offset_scale_witness :
    GoodChunk (⟨0, [0], [0], [1], (0, 0, 1),
      (1 / 1000, 1 / 1000, 1 / 1000)⟩ : LasFile ℚ) :=
  chunk_offset_scale 0 1 (fun _ => 0) (fun _ => 1) ⟨0, 1, 0, 0, 0, 1⟩ 1 [[1]]
    [⟨0, [0], [0], [1], (0, 0, 1), (1 / 1000, 1 / 1000, 1 / 1000)⟩]
    (Or.inl qrun_lim1) _ (by simp)

/-- Counterexample to C7 as stated: on the 4×2 scenario raster with limit
100 the run writes one file holding the five listed triples — five points,
not the six the claim asserts (row 0 contributes three survivors and row 1
two). -/
theorem end_to_end_limit100_counterexample :
    (runPipeline (0 : ℝ) 100 Real.sin Real.cos ⟨0, 1, 0, 0, 0, -1⟩ 4
        [[1, 0, 3, 4], [0, 0, 7, 8]]
      = RunOutcome.ok
          [⟨0, [0, 2, 3, 2, 3], [0, 0, 0, -1, -1], [1, 3, 4, 7, 8],
            (0, -1, 1), (1 / 1000, 1 / 1000, 1 / 1000)⟩]) ∧
    [(0 : ℝ), 2, 3, 2, 3].length ≠ 6 := by
  constructor
  · norm_num [runPipeline, runRows, ingestRow, r_rowVals, appendRow,
      filterRow, scanIndices, initState, saveLasFile, lasScale,
      List.range_succ, List.min?, List.filter_cons, min_def, List.replicate]
  · decide

/-- C7 (amended): on the 4×2 raster with geotransform (0,1,0,0,0,−1),
sentinel 0, values [[1,0,3,4],[0,0,7,8]] and limit 100, the pipeline
writes exactly one output file containing the 5 surviving points
(0,0,1), (2,0,3), (3,0,4), (2,−1,7), (3,−1,8) in column-then-row order,
with row 1's y coordinates negative, offset (0,−1,1) and scale 0.001. -/
theorem end_to_end_limit100 :
    runPipeline (0 : ℝ) 100 Real.sin Real.cos ⟨0, 1, 0, 0, 0, -1⟩ 4
        [[1, 0, 3, 4], [0, 0, 7, 8]]
      = RunOutcome.ok
          [⟨0, [0, 2, 3, 2, 3], [0, 0, 0, -1, -1], [1, 3, 4, 7, 8],
            (0, -1, 1), (1 / 1000, 1 / 1000, 1 / 1000)⟩] := by
  norm_num [runPipeline, runRows, ingestRow, r_rowVals, appendRow, filterRow,
    scanIndices, initState, saveLasFile, lasScale, List.range_succ, List.min?,
    List.filter_cons, min_def, List.replicate]

/-- Counterexample to C8 as stated: on the same raster with limit 3 the
run does not split the points 3/3 over two files — after row 0 the count
is 3, which does not exceed the limit, so no flush happens; row 1 brings
the chunk to 5 > 3 and the whole chunk is flushed into one file; the
mandatory final flush then crashes on the empty buffer. -/
theorem end_to_end_limit3_counterexample :
    runPipeline (0 : ℝ) 3 Real.sin Real.cos ⟨0, 1, 0, 0, 0, -1⟩ 4
        [[1, 0, 3, 4], [0, 0, 7, 8]]
      = RunOutcome.writeError
          [⟨0, [0, 2, 3, 2, 3], [0, 0, 0, -1, -1], [1, 3, 4, 7, 8],
            (0, -1, 1), (1 / 1000, 1 / 1000, 1 / 1000)⟩] := by
  norm_num [runPipeline, runRows, ingestRow, r_rowVals, appendRow, filterRow,
    scanIndices, initState, saveLasFile, lasScale, List.range_succ, List.min?,
    List.filter_cons, min_def, List.replicate]

/-- C8 (amended): with limit 3 the pipeline writes exactly one complete
output file, chunk 0, containing all 5 surviving points (the flush check
runs only after full rows), and the run then ends in a write error when
the mandatory final flush hits the empty buffer — no second file is
completed. -/
theorem end_to_end_limit3 :
    (runPipeline (0 : ℝ) 3 Real.sin Real.cos ⟨0, 1, 0, 0, 0, -1⟩ 4
        [[1, 0, 3, 4], [0, 0, 7, 8]]
      = RunOutcome.writeError
          [⟨0, [0, 2, 3, 2, 3], [0, 0, 0, -1, -1], [1, 3, 4, 7, 8],
            (0, -1, 1), (1 / 1000, 1 / 1000, 1 / 1000)⟩]) ∧
    countFiles (runPipeline (0 : ℝ) 3 Real.sin Real.cos ⟨0, 1, 0, 0, 0, -1⟩ 4
        [[1, 0, 3, 4], [0, 0, 7, 8]]) = 1 := by
  constructor <;>
    norm_num [runPipeline, runRows, ingestRow, r_rowVals, appendRow,
      filterRow, scanIndices, initState, saveLasFile, lasScale, countFiles,
      List.range_succ, List.min?, List.filter_cons, min_def, List.replicate]

end Dem2Las
